import Mathlib

/-!
Verification of the tcdsl op-definition registry (`src/tcdsl.py`).

The module is a scoped builder for parametrically-typed operations:
a thread-local active-definition slot (`op_def` context manager), a
per-definition parameter registry (`OpDef.type_params`), and an ordered
specialization log (`OpDef.specializations`).  We embed the module as
pure functions over an explicit context state `Ctx := Option OpDef`
(one slot per thread of control; each thread is independent, so one
`Ctx` value models one thread).
-/

namespace Tcdsl

/-- Embeds the external `mlir.ir.Type` values used by the module.  The
module treats them opaquely, only testing `isinstance(v, ir.Type)` and
printing them; we model the handful of shapes the doctests use. -/
inductive IRType where
  | f32
  | f64
  | signlessInt (width : Nat)
deriving DecidableEq

/-- `str()` of an `mlir.ir.Type` (e.g. `f32`, `i8`). -/
def IRType.display : IRType → String
  | .f32 => "f32"
  | .f64 => "f64"
  | .signlessInt w => "i" ++ toString w

/-- A Python value that may be bound in a specialization: either a
recognized external type handle (`mlir.ir.Type`) or some other Python
value (we model strings and integers as representatives). -/
inductive PyVal where
  | irType (t : IRType)
  | pyStr (s : String)
  | pyInt (n : Int)
deriving DecidableEq

/-- `isinstance(v, ir.Type)`. -/
def PyVal.isType : PyVal → Bool
  | .irType _ => true
  | _ => false

/-- Python `str(v)` as used in f-string interpolation. -/
def PyVal.toStr : PyVal → String
  | .irType t => t.display
  | .pyStr s => s
  | .pyInt n => toString n

/-- Python `repr(v)` as used inside `repr` of a dict: `mlir.ir.Type`
prints as `Type(<display>)`. -/
def PyVal.pyRepr : PyVal → String
  | .irType t => "Type(" ++ t.display ++ ")"
  | .pyStr s => (Char.ofNat 39).toString ++ s ++ (Char.ofNat 39).toString
  | .pyInt n => toString n

/-- `class TypeParam`: a named, generic type (src/tcdsl.py:73-98). -/
structure TypeParam where
  type_symbol : String
deriving DecidableEq

/-- `TypeParam.__repr__` (src/tcdsl.py:91-92). -/
def TypeParam.pyRepr (t : TypeParam) : String :=
  "TypeParam(" ++ (Char.ofNat 39).toString ++ t.type_symbol
    ++ (Char.ofNat 39).toString ++ ")"

/-- `TypeParam.__eq__` (src/tcdsl.py:94-98): compares the `type_symbol`
attribute of the other object with one's own.  Restricted to two
`TypeParam` arguments the attribute always exists, so the
`AttributeError` fallback branch cannot fire. -/
def TypeParam.pyEq (self other : TypeParam) : Bool :=
  other.type_symbol == self.type_symbol

/-- The Python exceptions the module raises, with their messages. -/
inductive Err where
  | valueError (msg : String)
  | typeError (msg : String)
  | attributeError (msg : String)
deriving DecidableEq

/-- Message of the nesting error (src/tcdsl.py:15). -/
def nestingMsg : String :=
  "Cannot nest multiple operations via " ++ (Char.ofNat 39).toString
    ++ "OpDef" ++ (Char.ofNat 39).toString

/-- Message of the missing-active-definition error (src/tcdsl.py:112-113). -/
def noActiveMsg : String :=
  "The expression requires an active OpDef(...) context"

/-- Message of the duplicate-parameter error (src/tcdsl.py:119). -/
def duplicateMsg (t : TypeParam) : String :=
  "Duplicate type parameter: " ++ t.pyRepr

/-- Message of the bad-binding-value error (src/tcdsl.py:68); the
f-string interpolates only the value (via `str`), not the name. -/
def badTypeMsg (v : PyVal) : String :=
  "Expected mlir.ir.Type but got " ++ v.toStr

/-- One specialization: the binding dict built by `specialize`
(src/tcdsl.py:64-69).  A Python dict is insertion-ordered, so we model
it as the association list in insertion order. -/
abbrev Binding := List (String × PyVal)

/-- `class OpDef` state (src/tcdsl.py:104-107): the op name, the
insertion-ordered dict of type parameters keyed by symbol, and the list
of specializations. -/
structure OpDef where
  op_name : String
  type_params : List (String × TypeParam)
  specializations : List Binding
deriving DecidableEq

/-- `OpDef.__init__` (src/tcdsl.py:104-107). -/
def OpDef.init (op_name : String) : OpDef :=
  ⟨op_name, [], []⟩

/-- `type_param.type_symbol in self.type_params` (src/tcdsl.py:117). -/
def OpDef.containsParam (op : OpDef) (s : String) : Bool :=
  op.type_params.any (fun p => p.1 == s)

/-- Dict lookup `self.type_params[s]`. -/
def OpDef.lookupParam (op : OpDef) (s : String) : Option TypeParam :=
  (op.type_params.find? (fun p => p.1 == s)).map Prod.snd

/-- `OpDef.add_type_param` (src/tcdsl.py:116-121): raises on a
duplicate unless `exist_ok`; inserts only when the symbol is absent. -/
def OpDef.add_type_param (op : OpDef) (t : TypeParam) (exist_ok : Bool) :
    Except Err OpDef :=
  if op.containsParam t.type_symbol then
    if exist_ok then .ok op
    else .error (.valueError (duplicateMsg t))
  else .ok { op with type_params := op.type_params ++ [(t.type_symbol, t)] }

/-- The thread-local active-definition slot `_CONTEXT.op_def`
(src/tcdsl.py:8): absent (`none`) or holding the active `OpDef`.  One
`Ctx` value models one thread of control. -/
abbrev Ctx := Option OpDef

/-- `OpDef.current_op` (src/tcdsl.py:109-114): the active definition,
or an `AttributeError` when none is active. -/
def OpDef.current_op (ctx : Ctx) : Except Err OpDef :=
  match ctx with
  | none => .error (.attributeError noActiveMsg)
  | some op => .ok op

/-- The enter half of the `op_def` context manager (src/tcdsl.py:14-17):
the resulting slot state together with the result (the fresh `OpDef`,
or the nesting error — in which case the slot is untouched). -/
def op_def_enter (ctx : Ctx) (name : String) : Ctx × Except Err OpDef :=
  match ctx with
  | some _ => (ctx, .error (.valueError nestingMsg))
  | none => (some (OpDef.init name), .ok (OpDef.init name))

/-- The exit half of the `op_def` context manager (src/tcdsl.py:20-21):
`del _CONTEXT.op_def` in a `finally` block clears the slot.  It runs
only after a successful enter, where the slot is set. -/
def op_def_exit (_ctx : Ctx) : Ctx :=
  none

/-- The whole `op_def` context manager run over a body
(src/tcdsl.py:11-21): fail on nesting, otherwise install a fresh
`OpDef`, run the body on the slot, and clear the slot in `finally`
whether or not the body raised (the body's error, if any, propagates). -/
def op_def_run (ctx : Ctx) (name : String)
    (body : Ctx → Ctx × Except Err Unit) : Ctx × Except Err Unit :=
  match ctx with
  | some _ => (ctx, .error (.valueError nestingMsg))
  | none =>
    let (ctx2, r) := body (some (OpDef.init name))
    (op_def_exit ctx2, r)

/-- `type_param(*type_symbols)` (src/tcdsl.py:24-37): for each symbol
in order, build a `TypeParam` and `add_type_param` it on the current op
(`exist_ok` defaulting to `False`); the first raise aborts the loop.
`OpDef.current_op()` is consulted inside the loop body, so an empty
symbol list raises nothing even without an active definition. -/
def type_param (ctx : Ctx) (type_symbols : List String) :
    Ctx × Except Err Unit :=
  match type_symbols with
  | [] => (ctx, .ok ())
  | s :: rest =>
    match OpDef.current_op ctx with
    | .error e => (ctx, .error e)
    | .ok op =>
      match op.add_type_param ⟨s⟩ false with
      | .error e => (some op, .error e)
      | .ok op2 => type_param (some op2) rest

/-- The loop of `specialize` (src/tcdsl.py:64-69): for each
`(type_symbol, ir_type)` pair in order, declare the symbol with
`exist_ok=True`, then check `isinstance(ir_type, ir.Type)`, raising
`TypeError` on failure; valid pairs accumulate into the local `binding`
dict.  Registry updates made before a raise persist (the op is mutated
in place), while the local `binding` is discarded. -/
def specializeLoop (op : OpDef) (pairs : List (String × PyVal))
    (binding : Binding) : OpDef × Except Err Binding :=
  match pairs with
  | [] => (op, .ok binding)
  | (s, v) :: rest =>
    match op.add_type_param ⟨s⟩ true with
    | .error e => (op, .error e)
    | .ok op2 =>
      if v.isType then specializeLoop op2 rest (binding ++ [(s, v)])
      else (op2, .error (.typeError (badTypeMsg v)))

/-- `specialize(**type_bindings)` (src/tcdsl.py:40-70): requires an
active op; runs the validation loop; on success appends the binding to
`op.specializations`. -/
def specialize (ctx : Ctx) (type_bindings : List (String × PyVal)) :
    Ctx × Except Err Unit :=
  match OpDef.current_op ctx with
  | .error e => (ctx, .error e)
  | .ok op =>
    match specializeLoop op type_bindings [] with
    | (op2, .ok binding) =>
      (some { op2 with specializations := op2.specializations ++ [binding] },
       .ok ())
    | (op2, .error e) => (some op2, .error e)

/-- The specialization log exposed for iteration: `op.specializations`
(src/tcdsl.py:107).  It is a plain attribute read — a pure function of
the state, hence side-effect free and restartable by construction. -/
def OpDef.all (op : OpDef) : List Binding :=
  op.specializations

/-- Python `repr` of one binding dict, insertion-ordered:
`\x7b'T': Type(f32), ...\x7d`. -/
def bindingPyRepr (b : Binding) : String :=
  "\x7b" ++ String.intercalate ", "
      (b.map (fun p => (Char.ofNat 39).toString ++ p.1
        ++ (Char.ofNat 39).toString ++ ": " ++ p.2.pyRepr))
    ++ "\x7d"

/-- `OpDef.__repr__` (src/tcdsl.py:123-127): the header line
`OpDef<name>:` followed by one two-space-indented line per
specialization, in order, joined by newlines. -/
def OpDef.pyRepr (op : OpDef) : String :=
  String.intercalate "\n"
    (("OpDef<" ++ op.op_name ++ ">:")
      :: op.specializations.map (fun s => "  " ++ bindingPyRepr s))

/-- Stated from the spec's words for the textual representation: the
identifying name first, then each Specialization's bindings in
declaration order, one per line, each value shown in the external type
value's own display form. -/
def specTextualDump (op : OpDef) : String :=
  op.specializations.foldl
    (fun acc s => acc ++ "\n" ++ "  " ++ bindingPyRepr s)
    ("OpDef<" ++ op.op_name ++ ">:")

/-- The state effect of `add_type_param` with `exist_ok=True`
(src/tcdsl.py:116-121): insert only when absent — the spec's
`declare_if_absent`. -/
def declareIfAbsent (op : OpDef) (s : String) : OpDef :=
  if op.containsParam s then op
  else { op with type_params := op.type_params ++ [(s, ⟨s⟩)] }

/-- Declare-if-absent of a list of names in order, as performed by the
`specialize` loop. -/
def declareAll (op : OpDef) (names : List String) : OpDef :=
  names.foldl declareIfAbsent op

/-- The state produced by a fully successful `specialize` call: every
name declared-if-absent in order, and the binding appended to the
log. -/
def specializeOk (op : OpDef) (b : Binding) : OpDef :=
  { declareAll op (b.map Prod.fst) with
    specializations := (declareAll op (b.map Prod.fst)).specializations ++ [b] }

/-! ### Helper lemmas -/

theorem find?_append_of_any {α : Type} (l₁ l₂ : List α) (p : α → Bool)
    (h : l₁.any p = true) : (l₁ ++ l₂).find? p = l₁.find? p := by
  have hs : (l₁.find? p).isSome := by
    rw [List.find?_isSome]
    simpa using h
  obtain ⟨a, ha⟩ := Option.isSome_iff_exists.mp hs
  rw [List.find?_append, ha]
  rfl

theorem add_type_param_exist_ok (op : OpDef) (s : String) :
    op.add_type_param ⟨s⟩ true = .ok (declareIfAbsent op s) := by
  simp only [OpDef.add_type_param, declareIfAbsent]
  split <;> rfl

theorem declareIfAbsent_specializations (op : OpDef) (s : String) :
    (declareIfAbsent op s).specializations = op.specializations := by
  simp only [declareIfAbsent]
  split <;> rfl

theorem declareIfAbsent_op_name (op : OpDef) (s : String) :
    (declareIfAbsent op s).op_name = op.op_name := by
  simp only [declareIfAbsent]
  split <;> rfl

theorem declareIfAbsent_containsParam (op : OpDef) (s t : String) :
    (declareIfAbsent op s).containsParam t
      = (op.containsParam t || s == t) := by
  simp only [declareIfAbsent]
  split
  · rename_i h
    by_cases hst : s = t
    · subst hst
      simp [h]
    · simp [hst]
  · simp [OpDef.containsParam, List.any_append]

theorem declareIfAbsent_lookup_of_contains (op : OpDef) (s t : String)
    (h : op.containsParam t = true) :
    (declareIfAbsent op s).lookupParam t = op.lookupParam t := by
  simp only [declareIfAbsent]
  split
  · rfl
  · simp only [OpDef.lookupParam]
    rw [find?_append_of_any _ _ _ h]

theorem declareAll_specializations (names : List String) :
    ∀ op : OpDef, (declareAll op names).specializations
      = op.specializations := by
  induction names with
  | nil => intro op; rfl
  | cons n ns ih =>
    intro op
    simp only [declareAll, List.foldl_cons]
    rw [show (ns.foldl declareIfAbsent (declareIfAbsent op n))
          = declareAll (declareIfAbsent op n) ns from rfl,
        ih, declareIfAbsent_specializations]

theorem declareAll_containsParam (names : List String) :
    ∀ (op : OpDef) (t : String), (declareAll op names).containsParam t
      = (op.containsParam t || names.contains t) := by
  induction names with
  | nil => intro op t; simp [declareAll]
  | cons n ns ih =>
    intro op t
    simp only [declareAll, List.foldl_cons]
    rw [show (ns.foldl declareIfAbsent (declareIfAbsent op n))
          = declareAll (declareIfAbsent op n) ns from rfl,
        ih, declareIfAbsent_containsParam]
    by_cases hnt : n = t
    · subst hnt
      simp [List.contains_cons, Bool.or_assoc]
    · have h1 : (n == t) = false := by simp [hnt]
      have h2 : (t ∈ n :: ns) ↔ (t ∈ ns) := by
        simp [List.mem_cons, Ne.symm hnt]
      simp [List.contains_cons, Bool.or_assoc, h1, h2, hnt, Ne.symm hnt]

theorem specializeLoop_ok (pairs : List (String × PyVal)) :
    ∀ (op : OpDef) (acc : Binding),
      (∀ p ∈ pairs, (Prod.snd p).isType = true) →
      specializeLoop op pairs acc
        = (declareAll op (pairs.map Prod.fst), .ok (acc ++ pairs)) := by
  induction pairs with
  | nil => intro op acc _; simp [specializeLoop, declareAll]
  | cons q rest ih =>
    intro op acc h
    obtain ⟨s, v⟩ := q
    have hv : v.isType = true := h (s, v) (List.mem_cons_self _ _)
    have hrest : ∀ p ∈ rest, (Prod.snd p).isType = true :=
      fun p hp => h p (List.mem_cons_of_mem _ hp)
    simp only [specializeLoop, add_type_param_exist_ok, hv, if_pos]
    rw [ih (declareIfAbsent op s) (acc ++ [(s, v)]) hrest]
    simp [declareAll]

theorem specializeLoop_fail (pre : List (String × PyVal))
    (n : String) (v : PyVal) (post : List (String × PyVal))
    (hv : v.isType = false) :
    ∀ (op : OpDef) (acc : Binding),
      (∀ p ∈ pre, (Prod.snd p).isType = true) →
      specializeLoop op (pre ++ (n, v) :: post) acc
        = (declareIfAbsent (declareAll op (pre.map Prod.fst)) n,
           .error (.typeError (badTypeMsg v))) := by
  induction pre with
  | nil =>
    intro op acc _
    simp [specializeLoop, add_type_param_exist_ok, hv, declareAll]
  | cons q rest ih =>
    intro op acc h
    obtain ⟨s, w⟩ := q
    have hw : w.isType = true := h (s, w) (List.mem_cons_self _ _)
    have hrest : ∀ p ∈ rest, (Prod.snd p).isType = true :=
      fun p hp => h p (List.mem_cons_of_mem _ hp)
    simp only [List.cons_append, specializeLoop, add_type_param_exist_ok,
      hw, if_pos]
    simp only [List.append_eq]
    rw [ih (declareIfAbsent op s) (acc ++ [(s, w)]) hrest]
    simp [declareAll]

theorem declareAll_op_name (names : List String) :
    ∀ op : OpDef, (declareAll op names).op_name = op.op_name := by
  induction names with
  | nil => intro op; rfl
  | cons n ns ih =>
    intro op
    simp only [declareAll, List.foldl_cons]
    rw [show (ns.foldl declareIfAbsent (declareIfAbsent op n))
          = declareAll (declareIfAbsent op n) ns from rfl,
        ih, declareIfAbsent_op_name]

theorem find?_param_eq_none (op : OpDef) (s : String)
    (h : op.containsParam s = false) :
    op.type_params.find? (fun p => p.1 == s) = none := by
  rw [List.find?_eq_none]
  intro x hx hpx
  have hc : op.containsParam s = true := by
    simp only [OpDef.containsParam, List.any_eq_true]
    exact ⟨x, hx, hpx⟩
  rw [hc] at h
  exact Bool.noConfusion h

theorem specialize_ok_eq (op : OpDef) (b : Binding)
    (hb : ∀ p ∈ b, (Prod.snd p).isType = true) :
    specialize (some op) b = (some (specializeOk op b), .ok ()) := by
  simp only [specialize, OpDef.current_op]
  rw [specializeLoop_ok b op [] hb]
  rfl

theorem specializeOk_specializations (op : OpDef) (b : Binding) :
    (specializeOk op b).specializations = op.specializations ++ [b] := by
  simp only [specializeOk]
  rw [declareAll_specializations]

theorem intercalate_go_eq_foldl (t : List String) :
    ∀ acc s : String,
      String.intercalate.go acc s t
        = t.foldl (fun a x => a ++ s ++ x) acc := by
  induction t with
  | nil => intro acc s; simp [String.intercalate.go]
  | cons a as ih =>
    intro acc s
    simp [String.intercalate.go, List.foldl_cons, ih]

/-! ### Claim theorems -/

/-- C1: the DefinitionScope enter/exit state machine.  When a
Definition `d` is active, a second enter fails with the NestingError
(`ValueError` with the nesting message) and leaves the slot unchanged;
exit clears the slot; a full `op_def` run over any body — including one
that raises — ends with the slot cleared; and an enter after an exit
succeeds with a fresh Definition. -/
theorem c1_scope_state_machine (ctx : Ctx) (d : OpDef) (name : String)
    (body : Ctx → Ctx × Except Err Unit) (h : ctx = some d) :
    op_def_enter ctx name = (ctx, .error (.valueError nestingMsg)) ∧
    op_def_exit ctx = none ∧
    (op_def_run none name body).1 = none ∧
    (op_def_enter (op_def_exit ctx) name).2 = .ok (OpDef.init name) := by
  subst h
  refine ⟨rfl, rfl, ?_, rfl⟩
  simp only [op_def_run]
  rcases hb : body (some (OpDef.init name)) with ⟨ctx2, r⟩
  rfl

/-- Witness for C1 at a concrete state: an active `OpDef "a"`, a second
enter named `"b"`, and a body that raises. -/
theorem c1_scope_state_machine_witness :
    op_def_enter (some (OpDef.init "a")) "b"
        = (some (OpDef.init "a"), .error (.valueError nestingMsg)) ∧
    op_def_exit (some (OpDef.init "a")) = none ∧
    (op_def_run none "b"
        (fun c => (c, .error (.valueError "boom")))).1 = none ∧
    (op_def_enter (op_def_exit (some (OpDef.init "a"))) "b").2
        = .ok (OpDef.init "b") :=
  c1_scope_state_machine (some (OpDef.init "a")) (OpDef.init "a") "b"
    (fun c => (c, .error (.valueError "boom"))) rfl

/-- C2 counterexample: the `TypeError` raised for an invalid binding
value interpolates only the value into its message
(src/tcdsl.py:68), not the offending name.  Two `specialize` calls that
differ only in the offending name produce the identical error, and the
concrete message contains the value but no name — so the error is not
"surfaced with the offending name and value" as the claim states. -/
theorem c2_name_not_surfaced_counterexample :
    (specialize (some (OpDef.init "matmul")) [("A", PyVal.pyInt 3)]).2
      = (specialize (some (OpDef.init "matmul")) [("B", PyVal.pyInt 3)]).2 ∧
    (specialize (some (OpDef.init "matmul")) [("A", PyVal.pyInt 3)]).2
      = .error (.typeError "Expected mlir.ir.Type but got 3") := by
  constructor <;> rfl

/-- C2 (amended): a `specialize` call whose first invalid pair is
`(n, v)` fails with the TypeBindingError surfacing the offending value
(its message does not include the offending name); no Specialization
is appended (the log is exactly as before the call); and the offending
name remains declared in the parameter registry. -/
theorem c2_add_failure_atomic (op : OpDef) (pre post : List (String × PyVal))
    (n : String) (v : PyVal)
    (hpre : ∀ p ∈ pre, (Prod.snd p).isType = true) (hv : v.isType = false) :
    ∃ op2,
      specialize (some op) (pre ++ (n, v) :: post)
        = (some op2, .error (.typeError (badTypeMsg v))) ∧
      op2.specializations = op.specializations ∧
      op2.containsParam n = true := by
  refine ⟨declareIfAbsent (declareAll op (pre.map Prod.fst)) n, ?_, ?_, ?_⟩
  · simp only [specialize, OpDef.current_op]
    rw [specializeLoop_fail pre n v post hv op [] hpre]
  · rw [declareIfAbsent_specializations, declareAll_specializations]
  · rw [declareIfAbsent_containsParam]
    simp

/-- Witness for the amended C2: binding `T` to `f32` and then `U` to
the string `"x"` fails, records nothing, and leaves `U` declared. -/
theorem c2_add_failure_atomic_witness :
    ∃ op2,
      specialize (some (OpDef.init "m"))
          [("T", PyVal.irType .f32), ("U", PyVal.pyStr "x")]
        = (some op2, .error (.typeError (badTypeMsg (PyVal.pyStr "x")))) ∧
      op2.specializations = (OpDef.init "m").specializations ∧
      op2.containsParam "U" = true :=
  c2_add_failure_atomic (OpDef.init "m") [("T", PyVal.irType .f32)] []
    "U" (PyVal.pyStr "x") (by decide) rfl

/-- C3: specialization implicitly declares.  For a name not yet
declared and a recognized external type value, `specialize` succeeds,
the name is afterwards contained in the registry, and the validated
binding is appended at the end of the ordered log. -/
theorem c3_specialize_implicitly_declares (op : OpDef) (n : String)
    (t : IRType) (_h : op.containsParam n = false) :
    ∃ op2,
      specialize (some op) [(n, PyVal.irType t)] = (some op2, .ok ()) ∧
      op2.containsParam n = true ∧
      op2.specializations = op.specializations ++ [[(n, PyVal.irType t)]] := by
  refine ⟨specializeOk op [(n, PyVal.irType t)],
    specialize_ok_eq op _ ?_, ?_, ?_⟩
  · intro p hp
    simp only [List.mem_singleton] at hp
    subst hp
    rfl
  · show (declareAll op [n]).containsParam n = true
    rw [declareAll_containsParam]
    simp
  · rw [specializeOk_specializations]

/-- Witness for C3: declaring `T` implicitly via a binding to `f32` on
a fresh Definition. -/
theorem c3_specialize_implicitly_declares_witness :
    ∃ op2,
      specialize (some (OpDef.init "m")) [("T", PyVal.irType .f32)]
        = (some op2, .ok ()) ∧
      op2.containsParam "T" = true ∧
      op2.specializations
        = (OpDef.init "m").specializations ++ [[("T", PyVal.irType .f32)]] :=
  c3_specialize_implicitly_declares (OpDef.init "m") "T" .f32 rfl

/-- C4: duplicate explicit declaration.  Declaring a name `s` already
present fails with the DuplicateParameterError carrying exactly the
repeated name (its message is the duplicate message for `⟨s⟩`) and
returns the registry state unchanged; declaring a fresh name `t` twice
in one call fails the same way while the insertion of `t` made earlier
in the same call remains, unaltered and retrievable. -/
theorem c4_duplicate_declare (op : OpDef) (s t : String)
    (hs : op.containsParam s = true) (ht : op.containsParam t = false) :
    type_param (some op) [s]
        = (some op, .error (.valueError (duplicateMsg ⟨s⟩))) ∧
    (∃ op2,
      type_param (some op) [t, t]
          = (some op2, .error (.valueError (duplicateMsg ⟨t⟩))) ∧
      op2.type_params = op.type_params ++ [(t, ⟨t⟩)] ∧
      op2.lookupParam t = some ⟨t⟩) := by
  constructor
  · simp [type_param, OpDef.current_op, OpDef.add_type_param, hs]
  · refine ⟨{ op with type_params := op.type_params ++ [(t, ⟨t⟩)] },
      ?_, rfl, ?_⟩
    · have h2 : ({ op with type_params := op.type_params ++ [(t, ⟨t⟩)]
          } : OpDef).containsParam t = true := by
        simp [OpDef.containsParam, List.any_append]
      simp [type_param, OpDef.current_op, OpDef.add_type_param, ht, h2]
    · simp only [OpDef.lookupParam, List.find?_append,
        find?_param_eq_none op t ht]
      simp [List.find?]

/-- Witness for C4 on a registry already holding `I`: re-declaring `I`
fails and `declare("J", "J")` fails after its first insertion. -/
theorem c4_duplicate_declare_witness :
    type_param (some (OpDef.mk "m" [("I", ⟨"I"⟩)] [])) ["I"]
        = (some (OpDef.mk "m" [("I", ⟨"I"⟩)] []),
           .error (.valueError (duplicateMsg ⟨"I"⟩))) ∧
    (∃ op2,
      type_param (some (OpDef.mk "m" [("I", ⟨"I"⟩)] [])) ["J", "J"]
          = (some op2, .error (.valueError (duplicateMsg ⟨"J"⟩))) ∧
      op2.type_params = [("I", ⟨"I"⟩), ("J", ⟨"J"⟩)] ∧
      op2.lookupParam "J" = some ⟨"J"⟩) :=
  c4_duplicate_declare (OpDef.mk "m" [("I", ⟨"I"⟩)] []) "I" "J"
    (by decide) (by decide)

/-- C5: the declare-if-absent contract of
`add_type_param(..., exist_ok=True)`.  It never fails (always `.ok`);
the registry gains a new entry exactly when the name was absent and is
otherwise left unaltered; and afterwards the name always resolves to
the pre-existing parameter when there was one (`getD` picks the
existing entry over the fresh one). -/
theorem c5_declare_if_absent_contract (op : OpDef) (s : String) :
    op.add_type_param ⟨s⟩ true = .ok (declareIfAbsent op s) ∧
    (declareIfAbsent op s).type_params
      = (if op.containsParam s then op.type_params
         else op.type_params ++ [(s, ⟨s⟩)]) ∧
    (declareIfAbsent op s).lookupParam s
      = some ((op.lookupParam s).getD ⟨s⟩) := by
  refine ⟨add_type_param_exist_ok op s, ?_, ?_⟩
  · simp only [declareIfAbsent]
    split <;> rfl
  · by_cases hc : op.containsParam s = true
    · have hsome : (op.type_params.find? (fun p => p.1 == s)).isSome := by
        rw [List.find?_isSome]
        simpa [OpDef.containsParam, List.any_eq_true] using hc
      obtain ⟨x, hx⟩ := Option.isSome_iff_exists.mp hsome
      simp [declareIfAbsent, hc, OpDef.lookupParam, hx]
    · simp only [Bool.not_eq_true] at hc
      simp only [declareIfAbsent, hc, Bool.false_eq_true, if_false,
        OpDef.lookupParam, List.find?_append, find?_param_eq_none op s hc]
      simp [List.find?]

/-- C6: log order, no de-duplication, pure iteration.  Two successive
`specialize` calls with the identical binding both persist, in
insertion order, as two distinct trailing entries of the log; the
exposed iteration `all` is a pure projection of the state (so re-running
it cannot differ), and it returns exactly the insertion-ordered log. -/
theorem c6_log_append_no_dedup (op : OpDef) (b : Binding)
    (hb : ∀ p ∈ b, (Prod.snd p).isType = true) :
    ∃ op1 op2,
      specialize (some op) b = (some op1, .ok ()) ∧
      specialize (some op1) b = (some op2, .ok ()) ∧
      op1.all = op.specializations ++ [b] ∧
      op2.all = op.specializations ++ [b, b] := by
  refine ⟨specializeOk op b, specializeOk (specializeOk op b) b,
    specialize_ok_eq op b hb, specialize_ok_eq _ b hb, ?_, ?_⟩
  · rw [OpDef.all, specializeOk_specializations]
  · rw [OpDef.all, specializeOk_specializations, specializeOk_specializations]
    simp

/-- Witness for C6: the doctest's first specialization
`T=f32, TACCUM=f32` added twice to a fresh `matmul` Definition. -/
theorem c6_log_append_no_dedup_witness :
    ∃ op1 op2,
      specialize (some (OpDef.init "matmul"))
          [("T", PyVal.irType .f32), ("TACCUM", PyVal.irType .f32)]
        = (some op1, .ok ()) ∧
      specialize (some op1)
          [("T", PyVal.irType .f32), ("TACCUM", PyVal.irType .f32)]
        = (some op2, .ok ()) ∧
      op1.all = (OpDef.init "matmul").specializations
          ++ [[("T", PyVal.irType .f32), ("TACCUM", PyVal.irType .f32)]] ∧
      op2.all = (OpDef.init "matmul").specializations
          ++ [[("T", PyVal.irType .f32), ("TACCUM", PyVal.irType .f32)],
              [("T", PyVal.irType .f32), ("TACCUM", PyVal.irType .f32)]] :=
  c6_log_append_no_dedup (OpDef.init "matmul")
    [("T", PyVal.irType .f32), ("TACCUM", PyVal.irType .f32)] (by decide)

/-- C7: operations requiring an active Definition fail with the
NoActiveDefinitionError (`AttributeError` with the active-context
message) when the slot is empty — `current_op` itself, `type_param`
with at least one symbol, and `specialize` — and when a Definition is
active `current_op` returns exactly the Definition held in the slot
(the embedding passes the state itself, so mutations through the
returned value are mutations of the slot's Definition). -/
theorem c7_requires_active (op : OpDef) (s : String) (rest : List String)
    (bindings : List (String × PyVal)) :
    OpDef.current_op (none : Ctx)
        = .error (.attributeError noActiveMsg) ∧
    type_param none (s :: rest)
        = (none, .error (.attributeError noActiveMsg)) ∧
    specialize none bindings
        = (none, .error (.attributeError noActiveMsg)) ∧
    OpDef.current_op (some op) = .ok op :=
  ⟨rfl, rfl, rfl, rfl⟩

/-- C8: `TypeParam.__eq__` restricted to TypeParameters is equality of
the symbolic names — it computes exactly the decision of name equality,
hence is reflexive and symmetric. -/
theorem c8_typeparam_eq_by_name (a b : TypeParam) :
    a.pyEq b = decide (a.type_symbol = b.type_symbol) ∧
    a.pyEq a = true ∧
    a.pyEq b = b.pyEq a := by
  refine ⟨?_, ?_, ?_⟩
  · by_cases h : a.type_symbol = b.type_symbol
    · simp [TypeParam.pyEq, h]
    · simp [TypeParam.pyEq, h, Ne.symm h]
  · simp [TypeParam.pyEq]
  · by_cases h : a.type_symbol = b.type_symbol
    · simp [TypeParam.pyEq, h]
    · simp [TypeParam.pyEq, h, Ne.symm h]

/-- C9: the textual representation.  `OpDef.__repr__` equals the
dump the spec describes: the identifying name on the first line, then
each Specialization's bindings in declaration order, one per line,
each value shown in its own display form. -/
theorem c9_textual_dump (op : OpDef) : op.pyRepr = specTextualDump op := by
  simp only [OpDef.pyRepr, specTextualDump, String.intercalate,
    intercalate_go_eq_foldl, List.foldl_map]
  apply List.foldl_ext
  intro a x _
  simp only [String.append_assoc]

/-- C10: binding pairs are processed strictly in sequence, each name
declared-if-absent before its value is validated.  When the first
invalid pair is `(n, v)` (all of `pre` valid, `v` not a type), the call
raises the TypeBindingError for `v`; the resulting registry is exactly
the old one with the names of `pre` and `n` declared-if-absent in
order, so a name is contained afterwards iff it was contained before or
occurs among `pre`'s names or is `n` — names of later pairs are not
registered — and neither the log nor the op name changes. -/
theorem c10_sequential_binding_processing (op : OpDef)
    (pre post : List (String × PyVal)) (n : String) (v : PyVal)
    (hpre : ∀ p ∈ pre, (Prod.snd p).isType = true) (hv : v.isType = false) :
    specialize (some op) (pre ++ (n, v) :: post)
        = (some (declareIfAbsent (declareAll op (pre.map Prod.fst)) n),
           .error (.typeError (badTypeMsg v))) ∧
    (∀ p ∈ pre, (declareIfAbsent (declareAll op (pre.map Prod.fst))
        n).containsParam p.1 = true) ∧
    (declareIfAbsent (declareAll op (pre.map Prod.fst))
        n).containsParam n = true ∧
    (∀ m : String, (declareIfAbsent (declareAll op (pre.map Prod.fst))
          n).containsParam m
        = (op.containsParam m || (pre.map Prod.fst).contains m || n == m)) ∧
    (declareIfAbsent (declareAll op (pre.map Prod.fst))
        n).specializations = op.specializations ∧
    (declareIfAbsent (declareAll op (pre.map Prod.fst))
        n).op_name = op.op_name := by
  refine ⟨?_, ?_, ?_, ?_, ?_, ?_⟩
  · simp only [specialize, OpDef.current_op]
    rw [specializeLoop_fail pre n v post hv op [] hpre]
  · intro p hp
    have hmem : (pre.map Prod.fst).contains p.1 = true :=
      List.elem_eq_true_of_mem (List.mem_map_of_mem Prod.fst hp)
    rw [declareIfAbsent_containsParam, declareAll_containsParam, hmem]
    simp
  · rw [declareIfAbsent_containsParam]
    simp
  · intro m
    rw [declareIfAbsent_containsParam, declareAll_containsParam,
      Bool.or_assoc]
  · rw [declareIfAbsent_specializations, declareAll_specializations]
  · rw [declareIfAbsent_op_name, declareAll_op_name]

/-- Witness for C10: on a fresh Definition, `T=f32` is processed and
declared, `U` is declared and then its string value fails, and `V`
(after the failure) is never reached. -/
theorem c10_sequential_binding_processing_witness :
    specialize (some (OpDef.init "m"))
        [("T", PyVal.irType .f32), ("U", PyVal.pyStr "x"),
         ("V", PyVal.irType .f64)]
      = (some (declareIfAbsent (declareAll (OpDef.init "m") ["T"]) "U"),
         .error (.typeError (badTypeMsg (PyVal.pyStr "x")))) ∧
    (declareIfAbsent (declareAll (OpDef.init "m") ["T"])
        "U").containsParam "T" = true ∧
    (declareIfAbsent (declareAll (OpDef.init "m") ["T"])
        "U").containsParam "U" = true ∧
    (declareIfAbsent (declareAll (OpDef.init "m") ["T"])
        "U").containsParam "V" = false := by
  have h := c10_sequential_binding_processing (OpDef.init "m")
    [("T", PyVal.irType .f32)] [("V", PyVal.irType .f64)]
    "U" (PyVal.pyStr "x") (by decide) rfl
  exact ⟨h.1, h.2.1 ("T", PyVal.irType .f32) (by decide),
    h.2.2.1, by decide⟩

end Tcdsl
